import Mathlib

/-!
Verification development for the FashionNanoBanana backend
(`backend/api.py` and `backend/banana.py`).

Strings are modelled as `List Char` (`Str`), the filesystem as a partial
map from paths to byte lists, and every Python function relevant to the
claims is translated into an executable Lean definition.  Nondeterministic
ingredients of the code (timestamps, uuid tokens, remote-service
responses, json parsing, fault injection for writes / moves / removes)
become explicit parameters, so the definitions stay total and executable.
-/

/-- Strings of the Python program, modelled as lists of characters. -/
abbrev Str := List Char

/-- Binary payloads, modelled as lists of bytes. -/
abbrev Bytes := List Nat

/-- The filesystem: a map from paths to file contents.  Directories are not
modelled separately; only regular files matter to the claims. -/
abbrev FS := Str → Option Bytes

/-- Observable events of one request: a successful `store` of an upload, a
`release` (cleanup) of an upload, and an outbound remote-service call. -/
inductive Event where
  | stored (path : Str)
  | released (path : Str)
  | remote
deriving DecidableEq

/-- Number of occurrences of event `e` in a trace. -/
def countEv (tr : List Event) (e : Event) : Nat :=
  tr.countP (fun x => x = e)

/-- Lowercasing of a single character, modelling Python `str.lower` on the
ASCII range (the only range the allow-lists use). -/
def pyCharLower (c : Char) : Char :=
  match c with
  | 'A' => 'a' | 'B' => 'b' | 'C' => 'c' | 'D' => 'd' | 'E' => 'e'
  | 'F' => 'f' | 'G' => 'g' | 'H' => 'h' | 'I' => 'i' | 'J' => 'j'
  | 'K' => 'k' | 'L' => 'l' | 'M' => 'm' | 'N' => 'n' | 'O' => 'o'
  | 'P' => 'p' | 'Q' => 'q' | 'R' => 'r' | 'S' => 's' | 'T' => 't'
  | 'U' => 'u' | 'V' => 'v' | 'W' => 'w' | 'X' => 'x' | 'Y' => 'y'
  | 'Z' => 'z'
  | c => c

/-- Python `str.lower` (ASCII model). -/
def pyLower (s : Str) : Str := s.map pyCharLower

/-- The last path component: everything after the final slash.  Models how
`pathlib.PurePath.name` and `os.path` treat the tail of a path. -/
def afterLastSlash (s : Str) : Str :=
  (s.reverse.takeWhile (fun c => c ≠ '/')).reverse

/-- Python `pathlib.Path(s).suffix`: the part of the last component from the
final dot on, empty when the final dot is the first or last character of the
component or when there is no dot. -/
def pySuffix (s : Str) : Str :=
  let name := afterLastSlash s
  let r := name.reverse
  let a := r.takeWhile (fun c => c ≠ '.')
  match r.drop a.length with
  | [] => []
  | _ :: bs => if a = [] ∨ bs = [] then [] else '.' :: a.reverse

/-- Python `os.path.join a b` for a relative `b` and an `a` without a
trailing slash, the only shape the backend uses. -/
def pyJoin (a b : Str) : Str := a ++ '/' :: b

/-- Decimal rendering of a natural number, modelling Python f-string
interpolation of an int. -/
def natStr (n : Nat) : Str := (Nat.repr n).toList

/-- Uploaded file as FastAPI hands it to the endpoint: declared filename,
declared content type, and the payload. -/
structure UploadFile where
  filename : Str
  content_type : Str
  content : Bytes
deriving DecidableEq

/-- MIME allow-list of `validate_image_file` (api.py line 81). -/
def allowed_types : List Str :=
  ["image/jpeg".toList, "image/jpg".toList, "image/png".toList, "image/webp".toList]

/-- Extension allow-list of `validate_image_file` (api.py line 82). -/
def allowed_extensions : List Str :=
  [".jpg".toList, ".jpeg".toList, ".png".toList, ".webp".toList]

/-- Translation of `validate_image_file` (api.py lines 79 to 93): the content
type must be in the MIME allow-list and the lowercased filename suffix must
be in the extension allow-list. -/
def validate_image_file (file : UploadFile) : Bool :=
  if ¬ (allowed_types.contains file.content_type) then false
  else if ¬ (allowed_extensions.contains (pyLower (pySuffix file.filename))) then false
  else true

/-- Translation of `get_unique_filename` (api.py lines 72 to 77).  The
timestamp (`datetime.now().strftime`) and the uuid token
(`str(uuid.uuid4())[:8]`) are nondeterministic and passed as parameters. -/
def get_unique_filename (timestamp uid : Str) (original_filename : Str) : Str :=
  timestamp ++ '_' :: uid ++ pySuffix original_filename

/-- Absolute path at which `save_upload_file` stores an upload. -/
def upload_path (script_dir destination_folder timestamp uid original_filename : Str) : Str :=
  pyJoin (pyJoin script_dir destination_folder) (get_unique_filename timestamp uid original_filename)

/-- Status code plus detail text of a raised `HTTPException`. -/
structure HTTPErr where
  code : Nat
  detail : Str
deriving DecidableEq

/-- Translation of `save_upload_file` (api.py lines 95 to 125).  Validation
failure raises 400 before touching the filesystem.  On the write path,
`open(file_path, "wb")` creates the file; `writeOk = false` models
`shutil.copyfileobj` failing after the create, in which case a partial file
remains and 500 is raised.  A `stored` event is emitted only when the write
succeeds and the path is returned. -/
def save_upload_file (fs : FS) (tr : List Event) (script_dir : Str)
    (upload_file : UploadFile) (destination_folder : Str)
    (timestamp uid : Str) (writeOk : Bool) :
    Except HTTPErr Str × FS × List Event :=
  if validate_image_file upload_file = false then
    (.error ⟨400, "Invalid file type. Allowed types: JPEG, PNG, WebP".toList⟩, fs, tr)
  else
    let file_path := upload_path script_dir destination_folder timestamp uid upload_file.filename
    if writeOk then
      (.ok file_path,
       fun q => if q = file_path then some upload_file.content else fs q,
       tr ++ [Event.stored file_path])
    else
      (.error ⟨500, "Failed to save file".toList⟩,
       fun q => if q = file_path then some [] else fs q,
       tr)

/-- Translation of `cleanup_file` (api.py lines 127 to 134): delete the file
when it exists; `removeOk = false` models `os.remove` raising, which the
function catches and only logs.  The call itself is the release operation,
so a `released` event is always recorded; the function never raises, which
the total return type makes explicit. -/
def cleanup_file (fs : FS) (tr : List Event) (file_path : Str) (removeOk : Bool) :
    FS × List Event :=
  if (fs file_path).isSome then
    if removeOk then
      (fun q => if q = file_path then none else fs q, tr ++ [Event.released file_path])
    else
      (fs, tr ++ [Event.released file_path])
  else
    (fs, tr ++ [Event.released file_path])

/-- Structured analysis record, translation of the `ClothingAnalysis`
pydantic model (banana.py lines 12 to 21). -/
structure ClothingAnalysis where
  description : Str
  tags : List Str
  clothing_type : Str
  color : Str
  texture : Str
  material : Str
  style : Str
  season : Str
deriving DecidableEq

/-- Fallback record built in the except branch of `analyze_clothing_item`
(banana.py lines 99 to 108). -/
def fallback_analysis : ClothingAnalysis where
  description := "Unable to analyze clothing item".toList
  tags := ["unknown".toList]
  clothing_type := "unknown".toList
  color := "unknown".toList
  texture := "unknown".toList
  material := "unknown".toList
  style := "unknown".toList
  season := "unknown".toList

/-- Model of `mimetypes.guess_type(path)[0]` from the standard library,
restricted to the extensions the backend can meet: lowercased suffix lookup
in the standard type map. -/
def guess_type (path : Str) : Option Str :=
  let ext := pyLower (pySuffix path)
  if ext = ".jpg".toList ∨ ext = ".jpeg".toList then some "image/jpeg".toList
  else if ext = ".png".toList then some "image/png".toList
  else if ext = ".webp".toList then some "image/webp".toList
  else if ext = ".gif".toList then some "image/gif".toList
  else none

/-- Translation of `load_image_as_bytes` (banana.py lines 30 to 37): read the
file, guess the MIME type from the path, fall back to JPEG. -/
def load_image_as_bytes (fs : FS) (image_path : Str) : Except Str (Bytes × Str) :=
  match fs image_path with
  | none => .error "No such file or directory".toList
  | some data => .ok (data, (guess_type image_path).getD "image/jpeg".toList)

/-- ASCII whitespace characters removed by Python `str.strip`. -/
def isPyWhitespace (c : Char) : Bool :=
  c = ' ' ∨ c = '\n' ∨ c = '\t' ∨ c = '\r'

/-- Python `str.strip` with no argument (ASCII whitespace model). -/
def pyStrip (s : Str) : Str :=
  ((s.dropWhile isPyWhitespace).reverse.dropWhile isPyWhitespace).reverse

/-- Python `str.startswith`. -/
def pyStartsWith (s pre : Str) : Bool := pre.isPrefixOf s

/-- Python `str.endswith`. -/
def pyEndsWith (s suf : Str) : Bool := suf.reverse.isPrefixOf s.reverse

/-- Text normalisation applied by `analyze_clothing_item` before parsing
(banana.py lines 86 to 93): strip whitespace, strip a leading markdown fence
marker, strip a trailing fence marker, strip again. -/
def stripped_response (text : Str) : Str :=
  let response_text := pyStrip text
  let response_text :=
    if pyStartsWith response_text "```json".toList then response_text.drop 7
    else response_text
  let response_text :=
    if pyEndsWith response_text "```".toList then
      response_text.take (response_text.length - 3)
    else response_text
  pyStrip response_text

/-- Parsing step of `analyze_clothing_item` (banana.py lines 84 to 108).
The combination of `json.loads` and pydantic validation
(`ClothingAnalysis(**analysis_data)`) is an external library and enters
as the parameter `jsonParse`; any failure of it yields the fallback
record, never an exception. -/
def parse_analysis_response (jsonParse : Str → Option ClothingAnalysis)
    (text : Str) : ClothingAnalysis :=
  match jsonParse (stripped_response text) with
  | some a => a
  | none => fallback_analysis

/-- Translation of `analyze_clothing_item` (banana.py lines 39 to 108).
Loading the image can raise; the remote `generate_content` call is the
oracle `remote` (its failure propagates, being outside the try block);
a received response is parsed with fallback.  The returned event list
records whether the remote call was issued. -/
def analyze_clothing_item (fs : FS) (image_path : Str)
    (remote : Except Str Str) (jsonParse : Str → Option ClothingAnalysis) :
    Except Str ClothingAnalysis × List Event :=
  match load_image_as_bytes fs image_path with
  | .error e => (.error e, [])
  | .ok _ =>
    match remote with
    | .error e => (.error e, [Event.remote])
    | .ok text => (.ok (parse_analysis_response jsonParse text), [Event.remote])

/-- One part of a streamed generation chunk (google-genai `Part`): optional
inline data (bytes plus MIME type) and optional text. -/
structure GenPart where
  inline_data : Option (Bytes × Str)
  text : Option Str
deriving DecidableEq

/-- One streamed chunk.  `none` models
`chunk.candidates is None or ... content is None or ... parts is None`
(banana.py lines 177 to 182); `some parts` carries the part list. -/
abbrev Chunk := Option (List GenPart)

/-- Model of `mimetypes.guess_extension` from the standard library for the
image types in play. -/
def guess_extension (mime : Str) : Option Str :=
  if mime = "image/png".toList then some ".png".toList
  else if mime = "image/jpeg".toList then some ".jpg".toList
  else if mime = "image/webp".toList then some ".webp".toList
  else none

/-- File name chosen in the stream loop of `generate_fashion_product_images`
(banana.py lines 186 to 193): prefix, underscore, index, extension guessed
from the MIME type with `.png` fallback.  `opfx` stands for the source
parameter `output` prefix. -/
def save_file_name (opfx : Str) (idx : Nat) (mime : Str) : Str :=
  opfx ++ '_' :: natStr idx ++ ((guess_extension mime).getD ".png".toList)

/-- Inner loop over the parts of one chunk (banana.py lines 184 to 195).
Returns the files written, in order, and the next file index.  A part whose
inline data is missing or empty is not saved (Python truthiness of
`part.inline_data and part.inline_data.data`); a text part is only
printed. -/
def process_parts (opfx : Str) (idx : Nat) : List GenPart → List (Str × Bytes) × Nat
  | [] => ([], idx)
  | p :: ps =>
    match p.inline_data with
    | some (d, m) =>
      if d ≠ [] then
        let rest := process_parts opfx (idx + 1) ps
        ((save_file_name opfx idx m, d) :: rest.1, rest.2)
      else
        process_parts opfx idx ps
    | none => process_parts opfx idx ps

/-- Outer loop over the streamed chunks (banana.py lines 172 to 195).
A chunk without candidates, content or parts is skipped. -/
def process_chunks (opfx : Str) (idx : Nat) : List Chunk → List (Str × Bytes) × Nat
  | [] => ([], idx)
  | none :: cs => process_chunks opfx idx cs
  | some ps :: cs =>
    let here := process_parts opfx idx ps
    let rest := process_chunks opfx here.2 cs
    (here.1 ++ rest.1, rest.2)

/-- Files written by the whole stream, with `file_index` starting at 0
(banana.py line 170). -/
def process_stream (chunks : List Chunk) (opfx : Str) : List (Str × Bytes) :=
  (process_chunks opfx 0 chunks).1

/-- Image-bearing parts of one chunk: inline data present and non-empty. -/
def image_parts_of (ps : List GenPart) : List (Bytes × Str) :=
  ps.filterMap (fun p =>
    match p.inline_data with
    | some (d, m) => if d ≠ [] then some (d, m) else none
    | none => none)

/-- Image-bearing parts of a whole stream, in emission order. -/
def image_parts : List Chunk → List (Bytes × Str)
  | [] => []
  | none :: cs => image_parts cs
  | some ps :: cs => image_parts_of ps ++ image_parts cs

/-- One element of the `contents` array sent to the generation service. -/
inductive ReqContent where
  | text (s : Str)
  | image (data : Bytes) (mime : Str)
deriving DecidableEq

/-- Fixed generation instruction (banana.py lines 138 to 152). -/
def generation_prompt : Str :=
  ("Using the provided images, place [apparel items from the apparel images] onto [model from the model image].\n" ++
   "Ensure that the features of [model from the model image] remain completely unchanged. The added [apparel items] should integrate naturally and realistically, with proper layering and positioning appropriate for each type of item (clothing, accessories, shoes, etc.).\n" ++
   "Generate a single composite image that shows the model wearing the clothing from 4 different angles:\n" ++
   "1. Front view - model facing forward\n" ++
   "2. Back view - model facing away\n" ++
   "3. Side view (left profile)\n" ++
   "4. Side view (right profile)\n" ++
   "Arrange these 4 views in a clean, professional grid layout suitable for an e-commerce product listing.\n" ++
   "The background should be clean and neutral (white or light gray).\n" ++
   "Ensure the clothing fits naturally on the model and maintain consistent lighting across all angles.\n" ++
   "The style should be professional fashion photography suitable for online retail.\n" ++
   "Important: Only follow the exact appearance and characteristics shown in the provided images - do not add any additional features or modifications.").toList

/-- Construction of the `contents` array (banana.py lines 154 to 160): the
prompt, then every apparel part in order via `extend`, then the model part
via `append`. -/
def build_contents (apparel_parts : List (Bytes × Str)) (model_part : Bytes × Str) :
    List ReqContent :=
  let contents : List ReqContent := [ReqContent.text generation_prompt]
  let contents := contents ++ apparel_parts.map (fun p => ReqContent.image p.1 p.2)
  contents ++ [ReqContent.image model_part.1 model_part.2]

/-- Loading loop over the apparel paths (banana.py lines 125 to 131),
in the given order; the first unreadable path raises. -/
def load_apparel_parts (fs : FS) : List Str → Except Str (List (Bytes × Str))
  | [] => .ok []
  | p :: ps =>
    match load_image_as_bytes fs p with
    | .error e => .error e
    | .ok part =>
      match load_apparel_parts fs ps with
      | .error e => .error e
      | .ok rest => .ok (part :: rest)

/-- Translation of `generate_fashion_product_images` (banana.py lines 110 to
195): load all apparel images in order, load the model image, send one
streamed request whose contents are built by `build_contents`, and write
every streamed image to the current directory.  The streamed response is the
oracle `remoteStream`, a function of the request contents.  The Python
function returns `None`; its effect is the filesystem update. -/
def generate_fashion_product_images (fs : FS) (apparel_image_paths : List Str)
    (model_image_path : Str) (opfx : Str)
    (remoteStream : List ReqContent → Except Str (List Chunk)) :
    Except Str Unit × FS × List Event :=
  match load_apparel_parts fs apparel_image_paths with
  | .error e => (.error e, fs, [])
  | .ok apparel_parts =>
    match load_image_as_bytes fs model_image_path with
    | .error e => (.error e, fs, [])
    | .ok model_part =>
      match remoteStream (build_contents apparel_parts model_part) with
      | .error e => (.error e, fs, [Event.remote])
      | .ok chunks =>
        (.ok (),
         (process_stream chunks opfx).foldl
           (fun f nd => fun q => if q = nd.1 then some nd.2 else f q) fs,
         [Event.remote])

/-- Python iteration over a `str` yields its one-character substrings.  The
call `generate_fashion_product_images(clothing_path, model_path, ...)`
(api.py line 220) passes the clothing path string where banana.py documents
a list of paths, so the loop over `apparel_image_paths` receives exactly
these one-character strings. -/
def char_paths (s : Str) : List Str := s.map (fun c => [c])

/-- Relocation of one file (`shutil.move`, api.py line 231): the payload
appears at the destination and disappears from the source. -/
def move_file (fs : FS) (src dst : Str) : FS :=
  fun q => if q = dst then fs src else if q = src then none else fs q

/-- Static file name minted for a published image (api.py line 229):
`generated_{uuid hex}_{i}.png`, the uuid freshly drawn per file. -/
def static_name (uuidHex : Str) (i : Nat) : Str :=
  "generated_".toList ++ uuidHex ++ '_' :: natStr i ++ ".png".toList

/-- Public URL of a published image (api.py line 234). -/
def static_url (static_filename : Str) : Str :=
  "/static/".toList ++ static_filename

/-- Name the collect loop scans for (api.py line 226): only `.png` names. -/
def scan_name (opfx : Str) (i : Nat) : Str :=
  opfx ++ '_' :: natStr i ++ ".png".toList

/-- One iteration of the collect-and-publish loop (api.py lines 225 to 236).
An error already raised aborts the remaining iterations; otherwise, when the
scanned file exists it is moved into the static directory (`moveOk i = false`
models `shutil.move` raising, which propagates) and its name and URL are
appended. -/
def collect_step (static_dir opfx : Str) (uuids : Nat → Str) (moveOk : Nat → Bool)
    (acc : Except Str (List Str × List Str) × FS) (i : Nat) :
    Except Str (List Str × List Str) × FS :=
  match acc with
  | (.error e, fs) => (.error e, fs)
  | (.ok (files, urls), fs) =>
    let image_file := scan_name opfx i
    if (fs image_file).isSome then
      if moveOk i then
        let sn := static_name (uuids i) i
        (.ok (files ++ [sn], urls ++ [static_url sn]),
         move_file fs image_file (pyJoin static_dir sn))
      else (.error "move failed".toList, fs)
    else (.ok (files, urls), fs)

/-- The whole bounded scan `for i in range(10)` (api.py lines 222 to 236),
returning the collected static file names and URLs. -/
def collect_generated (fs : FS) (static_dir opfx : Str)
    (uuids : Nat → Str) (moveOk : Nat → Bool) :
    Except Str (List Str × List Str) × FS :=
  (List.range 10).foldl (collect_step static_dir opfx uuids moveOk) (.ok ([], []), fs)

/-- Response model of the analyze endpoint (api.py lines 52 to 56). -/
structure AnalyzeResponse where
  success : Bool
  analysis : ClothingAnalysis
  message : Str
deriving DecidableEq

/-- Response model of the generate endpoint (api.py lines 58 to 63). -/
structure GenerateResponse where
  success : Bool
  analysis : ClothingAnalysis
  generated_images : List Str
  message : Str
deriving DecidableEq

/-- Success message of the generate endpoint (api.py line 244). -/
def generate_message (n : Nat) : Str :=
  "Product generation completed successfully. Generated ".toList ++ natStr n ++
    " images.".toList

/-- Translation of the `/api/analyze` endpoint `analyze_clothing` (api.py
lines 142 to 185).  An invalid upload raises 400 with `clothing_path` still
`None`, so the finally block skips cleanup; after a successful store, every
path through try / except reaches the finally block, which releases the
stored file exactly once; an analysis exception is converted to 500. -/
def analyze_clothing (fs : FS) (script_dir : Str) (clothing_image : UploadFile)
    (ts uid : Str) (writeOk : Bool) (remote : Except Str Str)
    (jsonParse : Str → Option ClothingAnalysis) (removeOk : Bool) :
    Except HTTPErr AnalyzeResponse × FS × List Event :=
  match save_upload_file fs [] script_dir clothing_image "apparels".toList ts uid writeOk with
  | (.error e, fs1, tr1) => (.error e, fs1, tr1)
  | (.ok clothing_path, fs1, tr1) =>
    match analyze_clothing_item fs1 clothing_path remote jsonParse with
    | (.error e, ev) =>
      let fin := cleanup_file fs1 (tr1 ++ ev) clothing_path removeOk
      (.error ⟨500, "Analysis failed: ".toList ++ e⟩, fin)
    | (.ok analysis, ev) =>
      let fin := cleanup_file fs1 (tr1 ++ ev) clothing_path removeOk
      (.ok ⟨true, analysis, "Clothing analysis completed successfully".toList⟩, fin)

/-- Translation of the `/api/generate` endpoint `generate_product_images`
(api.py lines 187 to 260).  Both uploads are stored, the clothing image is
analyzed, `generate_fashion_product_images` is called with the clothing
path string in the list position (see `char_paths`), the collect loop
publishes whatever `.png` files the scan finds, and the finally block
releases each stored upload exactly once on every path. -/
def generate_product_images (fs : FS) (script_dir static_dir : Str)
    (clothing_image model_image : UploadFile) (opfx : Str)
    (ts1 uid1 ts2 uid2 : Str) (writeOk1 writeOk2 : Bool)
    (remoteA : Except Str Str) (jsonParse : Str → Option ClothingAnalysis)
    (remoteStream : List ReqContent → Except Str (List Chunk))
    (uuids : Nat → Str) (moveOk : Nat → Bool) (removeOk1 removeOk2 : Bool) :
    Except HTTPErr GenerateResponse × FS × List Event :=
  match save_upload_file fs [] script_dir clothing_image "apparels".toList ts1 uid1 writeOk1 with
  | (.error e, fs1, tr1) => (.error e, fs1, tr1)
  | (.ok clothing_path, fs1, tr1) =>
    match save_upload_file fs1 tr1 script_dir model_image "model".toList ts2 uid2 writeOk2 with
    | (.error e, fs2, tr2) =>
      let fin := cleanup_file fs2 tr2 clothing_path removeOk1
      (.error e, fin)
    | (.ok model_path, fs2, tr2) =>
      match analyze_clothing_item fs2 clothing_path remoteA jsonParse with
      | (.error e, ev) =>
        let fin1 := cleanup_file fs2 (tr2 ++ ev) clothing_path removeOk1
        let fin2 := cleanup_file fin1.1 fin1.2 model_path removeOk2
        (.error ⟨500, "Product generation failed: ".toList ++ e⟩, fin2)
      | (.ok analysis, evA) =>
        match generate_fashion_product_images fs2 (char_paths clothing_path)
            model_path opfx remoteStream with
        | (.error e, fs3, evG) =>
          let fin1 := cleanup_file fs3 (tr2 ++ evA ++ evG) clothing_path removeOk1
          let fin2 := cleanup_file fin1.1 fin1.2 model_path removeOk2
          (.error ⟨500, "Product generation failed: ".toList ++ e⟩, fin2)
        | (.ok _, fs3, evG) =>
          match collect_generated fs3 static_dir opfx uuids moveOk with
          | (.error e, fs4) =>
            let fin1 := cleanup_file fs4 (tr2 ++ evA ++ evG) clothing_path removeOk1
            let fin2 := cleanup_file fin1.1 fin1.2 model_path removeOk2
            (.error ⟨500, "Product generation failed: ".toList ++ e⟩, fin2)
          | (.ok (files, urls), fs4) =>
            let fin1 := cleanup_file fs4 (tr2 ++ evA ++ evG) clothing_path removeOk1
            let fin2 := cleanup_file fin1.1 fin1.2 model_path removeOk2
            (.ok ⟨true, analysis, urls, generate_message files.length⟩, fin2)

/-- Traces made of remote-call events only (no store, no release). -/
def onlyRemote (es : List Event) : Prop := ∀ e ∈ es, e = Event.remote

/-- Clothing upload of the claimed happy-path generation scenario. -/
def c1_clothing : UploadFile := ⟨"shirt.jpg".toList, "image/jpeg".toList, [1]⟩

/-- Model upload of the claimed happy-path generation scenario. -/
def c1_model : UploadFile := ⟨"model.png".toList, "image/png".toList, [2]⟩

/-- Streamed remote response of the scenario: four image chunks. -/
def c1_chunks : List Chunk :=
  [some [⟨some ([9], "image/png".toList), none⟩],
   some [⟨some ([8], "image/png".toList), none⟩],
   some [⟨some ([7], "image/png".toList), none⟩],
   some [⟨some ([6], "image/png".toList), none⟩]]

/-- Full run of the generate endpoint on the scenario: valid uploads, all
writes succeed, analysis text arrives, the generation stream would carry
four image chunks, every move and remove succeeds. -/
def c1_run : Except HTTPErr GenerateResponse × FS × List Event :=
  generate_product_images (fun _ => none) "/app".toList "/app/static".toList
    c1_clothing c1_model "product".toList
    "20240101_000000".toList "aaaabbbb".toList
    "20240101_000001".toList "ccccdddd".toList
    true true (.ok "analysis".toList) (fun _ => none)
    (fun _ => .ok c1_chunks) (fun _ => "u".toList) (fun _ => true) true true

/-- Filesystem holding two generated images awaiting publication. -/
def c3_fs : FS := fun q =>
  if q = scan_name "product".toList 0 then some [1]
  else if q = scan_name "product".toList 1 then some [2]
  else none

/-- Publication run in which relocating the second file fails. -/
def c3_run : Except Str (List Str × List Str) × FS :=
  collect_generated c3_fs "/app/static".toList "product".toList
    (fun _ => "u".toList) (fun i => i == 0)

/-! ## Helper lemmas -/

theorem countEv_nil (e : Event) : countEv [] e = 0 := rfl

theorem countEv_cons (x : Event) (tr : List Event) (e : Event) :
    countEv (x :: tr) e = (if x = e then 1 else 0) + countEv tr e := by
  simp only [countEv, List.countP_cons]
  by_cases h : x = e <;> simp [h]
  omega

theorem countEv_append (a b : List Event) (e : Event) :
    countEv (a ++ b) e = countEv a e + countEv b e := by
  simp [countEv, List.countP_append]

theorem countEv_onlyRemote (es : List Event) (h : onlyRemote es) (p : Str) :
    countEv es (Event.stored p) = 0 ∧ countEv es (Event.released p) = 0 := by
  induction es with
  | nil => exact ⟨rfl, rfl⟩
  | cons x xs ih =>
    have hx : x = Event.remote := h x (List.mem_cons_self x xs)
    have hxs : onlyRemote xs := fun e he => h e (List.mem_cons_of_mem x he)
    have := ih hxs
    subst hx
    constructor <;> rw [countEv_cons] <;> simp [this.1, this.2]

theorem cleanup_file_trace (fs : FS) (tr : List Event) (p : Str) (b : Bool) :
    (cleanup_file fs tr p b).2 = tr ++ [Event.released p] := by
  unfold cleanup_file
  split <;> [skip; rfl]
  split <;> rfl

/-! ## C9: release is idempotent and never raises -/

/-- C9: `cleanup_file` is idempotent and silent on faults: releasing a path
that is absent leaves the filesystem unchanged, releasing after a successful
release changes nothing more (so releasing twice equals releasing once), and
a failed deletion leaves the filesystem unchanged without raising — the
total return type of `cleanup_file` is the absence of any raised error. -/
theorem c9_cleanup_file_idempotent :
    ∀ (fs : FS) (tr tr2 : List Event) (p : Str) (b : Bool),
      (cleanup_file (fun q => if q = p then none else fs q) tr p b).1
          = (fun q => if q = p then none else fs q)
      ∧ (cleanup_file (cleanup_file fs tr p true).1 tr2 p b).1
          = (cleanup_file fs tr p true).1
      ∧ (cleanup_file fs tr p false).1 = fs := by
  intro fs tr tr2 p b
  refine ⟨?_, ?_, ?_⟩
  · simp [cleanup_file]
  · by_cases h : (fs p).isSome <;> simp [cleanup_file, h]
  · by_cases h : (fs p).isSome <;> simp [cleanup_file, h]

/-! ## C2: unparsable analysis responses -/

/-- C2 counterexample: on an unparsable response no error propagates, but
the returned record's description field is not the sentinel "unknown" — it
is "Unable to analyze clothing item" — so the claim that every field equals
"unknown" is false. -/
theorem c2_counterexample :
    (parse_analysis_response (fun _ => none) "not json at all".toList).description
        ≠ "unknown".toList
    ∧ (analyze_clothing_item (fun q => if q = "shirt.jpg".toList then some [1] else none)
        "shirt.jpg".toList (Except.ok "not json at all".toList) (fun _ => none)).1
        = Except.ok fallback_analysis := by
  refine ⟨by decide, rfl⟩

/-- C2 (amended): for every remote response whose text does not parse as the
expected schema, `analyze_clothing_item` propagates no error and returns the
fixed fallback record, whose tags equal ["unknown"] and whose fields all
equal "unknown" except the description, which equals
"Unable to analyze clothing item". -/
theorem c2_unparsable_response_gives_sentinel :
    ∀ (fs : FS) (path : Str) (d : Bytes) (text : Str)
      (jsonParse : Str → Option ClothingAnalysis),
      fs path = some d →
      jsonParse (stripped_response text) = none →
      (analyze_clothing_item fs path (Except.ok text) jsonParse).1
          = Except.ok fallback_analysis
      ∧ fallback_analysis.tags = ["unknown".toList]
      ∧ fallback_analysis.clothing_type = "unknown".toList
      ∧ fallback_analysis.color = "unknown".toList
      ∧ fallback_analysis.texture = "unknown".toList
      ∧ fallback_analysis.material = "unknown".toList
      ∧ fallback_analysis.style = "unknown".toList
      ∧ fallback_analysis.season = "unknown".toList
      ∧ fallback_analysis.description = "Unable to analyze clothing item".toList := by
  intro fs path d text jp h1 h2
  refine ⟨?_, by decide, by decide, by decide, by decide, by decide, by decide,
    by decide, by decide⟩
  simp [analyze_clothing_item, load_image_as_bytes, h1, parse_analysis_response, h2]

/-- C2 witness: the sentinel theorem applied at a concrete filesystem, path
and response text. -/
theorem c2_witness :
    ((fun q => if q = "a.jpg".toList then some [1] else none) : FS) "a.jpg".toList = some [1]
    ∧ ((fun _ => (none : Option ClothingAnalysis)) (stripped_response "bad".toList) = none)
    ∧ ((analyze_clothing_item (fun q => if q = "a.jpg".toList then some [1] else none)
          "a.jpg".toList (Except.ok "bad".toList) (fun _ => none)).1
          = Except.ok fallback_analysis
        ∧ fallback_analysis.tags = ["unknown".toList]
        ∧ fallback_analysis.clothing_type = "unknown".toList
        ∧ fallback_analysis.color = "unknown".toList
        ∧ fallback_analysis.texture = "unknown".toList
        ∧ fallback_analysis.material = "unknown".toList
        ∧ fallback_analysis.style = "unknown".toList
        ∧ fallback_analysis.season = "unknown".toList
        ∧ fallback_analysis.description = "Unable to analyze clothing item".toList) :=
  ⟨by decide, rfl,
    c2_unparsable_response_gives_sentinel _ _ [1] "bad".toList _ (by decide) rfl⟩

/-! ## C5 / C6: upload validation -/

theorem validate_false_of_invalid (f : UploadFile)
    (h : f.content_type ∉ allowed_types
       ∨ pyLower (pySuffix f.filename) ∉ allowed_extensions) :
    validate_image_file f = false := by
  unfold validate_image_file
  rcases h with h | h
  · simp [h]
  · by_cases hc : allowed_types.contains f.content_type = true <;> simp [hc, h]

/-- C5: an upload failing the MIME allow-list or the extension allow-list
(each check alone suffices to reject) makes `save_upload_file` raise the
400 invalid-input error with the filesystem untouched and nothing stored,
and makes both endpoints return that error with an empty event trace, so
no file is created and no remote call is attempted. -/
theorem c5_invalid_upload_rejected_before_side_effects :
    ∀ (f : UploadFile),
      (f.content_type ∉ allowed_types
        ∨ pyLower (pySuffix f.filename) ∉ allowed_extensions) →
      validate_image_file f = false
      ∧ (∀ (fs : FS) (tr : List Event) (sd dest ts uid : Str) (w : Bool),
          save_upload_file fs tr sd f dest ts uid w
            = (.error ⟨400, "Invalid file type. Allowed types: JPEG, PNG, WebP".toList⟩,
               fs, tr))
      ∧ (∀ (fs : FS) (sd ts uid : Str) (w : Bool) (r : Except Str Str)
          (jp : Str → Option ClothingAnalysis) (rm : Bool),
          analyze_clothing fs sd f ts uid w r jp rm
            = (.error ⟨400, "Invalid file type. Allowed types: JPEG, PNG, WebP".toList⟩,
               fs, []))
      ∧ (∀ (fs : FS) (sd st : Str) (m : UploadFile) (o ts1 uid1 ts2 uid2 : Str)
          (w1 w2 : Bool) (rA : Except Str Str) (jp : Str → Option ClothingAnalysis)
          (rS : List ReqContent → Except Str (List Chunk)) (us : Nat → Str)
          (mv : Nat → Bool) (r1 r2 : Bool),
          generate_product_images fs sd st f m o ts1 uid1 ts2 uid2 w1 w2 rA jp rS us mv r1 r2
            = (.error ⟨400, "Invalid file type. Allowed types: JPEG, PNG, WebP".toList⟩,
               fs, [])) := by
  intro f h
  have hv := validate_false_of_invalid f h
  refine ⟨hv, ?_, ?_, ?_⟩
  · intro fs tr sd dest ts uid w
    simp [save_upload_file, hv]
  · intro fs sd ts uid w r jp rm
    simp [analyze_clothing, save_upload_file, hv]
  · intro fs sd st m o ts1 uid1 ts2 uid2 w1 w2 rA jp rS us mv r1 r2
    simp [generate_product_images, save_upload_file, hv]

/-- C5 witness: a PNG-typed upload whose filename extension is `.txt`
passes the MIME check alone, yet is rejected with no file created and no
remote call. -/
theorem c5_witness :
    ((⟨"a.txt".toList, "image/png".toList, [1]⟩ : UploadFile).content_type ∉ allowed_types
      ∨ pyLower (pySuffix (⟨"a.txt".toList, "image/png".toList, [1]⟩ : UploadFile).filename)
          ∉ allowed_extensions)
    ∧ analyze_clothing (fun _ => none) "/app".toList
        ⟨"a.txt".toList, "image/png".toList, [1]⟩ "t".toList "u".toList true
        (Except.ok "x".toList) (fun _ => none) true
        = (.error ⟨400, "Invalid file type. Allowed types: JPEG, PNG, WebP".toList⟩,
           (fun _ => none), []) :=
  ⟨Or.inr (by decide),
    (c5_invalid_upload_rejected_before_side_effects
        ⟨"a.txt".toList, "image/png".toList, [1]⟩ (Or.inr (by decide))).2.2.1
      (fun _ => none) "/app".toList "t".toList "u".toList true
      (Except.ok "x".toList) (fun _ => none) true⟩

/-- C6 counterexample: the declared media type "image/jpg", which is not one
of image/jpeg, image/png, image/webp, is nevertheless accepted: validation
passes and the analyze endpoint runs to success, issuing one remote call. -/
theorem c6_counterexample :
    validate_image_file ⟨"a.jpg".toList, "image/jpg".toList, []⟩ = true
    ∧ "image/jpg".toList ∉ ["image/jpeg".toList, "image/png".toList, "image/webp".toList]
    ∧ (analyze_clothing (fun _ => none) "/app".toList
        ⟨"a.jpg".toList, "image/jpg".toList, [7]⟩
        "20240101_000000".toList "abcd1234".toList true (Except.ok "x".toList)
        (fun _ => none) true).1
        = Except.ok ⟨true, fallback_analysis,
            "Clothing analysis completed successfully".toList⟩
    ∧ countEv (analyze_clothing (fun _ => none) "/app".toList
        ⟨"a.jpg".toList, "image/jpg".toList, [7]⟩
        "20240101_000000".toList "abcd1234".toList true (Except.ok "x".toList)
        (fun _ => none) true).2.2 Event.remote = 1 := by
  refine ⟨by decide, by decide, rfl, by decide⟩

/-- C6 (amended): the accepted media types are exactly image/jpeg,
image/jpg, image/png and image/webp; any other declared media type is
rejected with 400 before any remote call (empty event trace). -/
theorem c6_media_type_allowlist :
    ∀ (f : UploadFile),
      f.content_type ∉ allowed_types →
      validate_image_file f = false
      ∧ (∀ (fs : FS) (sd ts uid : Str) (w : Bool) (r : Except Str Str)
          (jp : Str → Option ClothingAnalysis) (rm : Bool),
          analyze_clothing fs sd f ts uid w r jp rm
            = (.error ⟨400, "Invalid file type. Allowed types: JPEG, PNG, WebP".toList⟩,
               fs, [])) := by
  intro f h
  have hv := validate_false_of_invalid f (Or.inl h)
  refine ⟨hv, ?_⟩
  intro fs sd ts uid w r jp rm
  simp [analyze_clothing, save_upload_file, hv]

/-- C6 witness: a GIF-typed upload is rejected before any remote call. -/
theorem c6_witness :
    ((⟨"a.gif".toList, "image/gif".toList, [1]⟩ : UploadFile).content_type ∉ allowed_types)
    ∧ analyze_clothing (fun _ => none) "/app".toList
        ⟨"a.gif".toList, "image/gif".toList, [1]⟩ "t".toList "u".toList true
        (Except.ok "x".toList) (fun _ => none) true
        = (.error ⟨400, "Invalid file type. Allowed types: JPEG, PNG, WebP".toList⟩,
           (fun _ => none), []) :=
  ⟨by decide,
    (c6_media_type_allowlist ⟨"a.gif".toList, "image/gif".toList, [1]⟩ (by decide)).2
      (fun _ => none) "/app".toList "t".toList "u".toList true
      (Except.ok "x".toList) (fun _ => none) true⟩

/-! ## C7: stream processing -/

theorem enumFrom_append_ev {α : Type} (k : Nat) (l1 l2 : List α) :
    List.enumFrom k (l1 ++ l2)
      = List.enumFrom k l1 ++ List.enumFrom (k + l1.length) l2 := by
  induction l1 generalizing k with
  | nil => simp
  | cons a l ih =>
    show (k, a) :: List.enumFrom (k + 1) (l ++ l2)
        = ((k, a) :: List.enumFrom (k + 1) l) ++ List.enumFrom (k + (a :: l).length) l2
    rw [ih (k + 1), List.cons_append, List.length_cons]
    have h2 : k + 1 + l.length = k + (l.length + 1) := by omega
    rw [h2]

theorem process_parts_eq (opfx : Str) (k : Nat) (ps : List GenPart) :
    process_parts opfx k ps
      = ((List.enumFrom k (image_parts_of ps)).map
          (fun im => (save_file_name opfx im.1 im.2.2, im.2.1)),
         k + (image_parts_of ps).length) := by
  induction ps generalizing k with
  | nil => simp [process_parts, image_parts_of]
  | cons p ps ih =>
    match hp : p.inline_data with
    | some (d, m) =>
      by_cases hd : d = []
      · simp [process_parts, hp, hd, image_parts_of, List.filterMap_cons, ih k]
      · simp only [process_parts, hp, hd, ne_eq, not_false_eq_true, if_true,
          image_parts_of, List.filterMap_cons, ih (k + 1)]
        simp [List.enumFrom, image_parts_of, List.length_cons]
        rw [Nat.add_comm (List.length _) 1, ← Nat.add_assoc]
    | none =>
      simp [process_parts, hp, image_parts_of, List.filterMap_cons, ih k]

theorem process_chunks_eq (opfx : Str) (k : Nat) (cs : List Chunk) :
    process_chunks opfx k cs
      = ((List.enumFrom k (image_parts cs)).map
          (fun im => (save_file_name opfx im.1 im.2.2, im.2.1)),
         k + (image_parts cs).length) := by
  induction cs generalizing k with
  | nil => simp [process_chunks, image_parts]
  | cons c cs ih =>
    match c with
    | none => simp [process_chunks, image_parts, ih k]
    | some ps =>
      simp only [process_chunks, image_parts, process_parts_eq, ih]
      rw [enumFrom_append_ev]
      simp [List.length_append]
      omega

/-- C7: a generation stream with any interleaving of image-bearing,
text-only and contentless chunks writes exactly the image-bearing parts: one
file per image part, named with the output prefix and consecutive indices
0..N-1 assigned in emission order (extension guessed from the declared MIME
type), carrying exactly the streamed bytes; text parts and contentless
chunks produce no file. -/
theorem c7_stream_writes_images_in_order :
    ∀ (chunks : List Chunk) (o : Str),
      process_stream chunks o
        = (List.enumFrom 0 (image_parts chunks)).map
            (fun im => (save_file_name o im.1 im.2.2, im.2.1))
      ∧ (process_stream chunks o).length = (image_parts chunks).length := by
  intro chunks o
  have h := process_chunks_eq o 0 chunks
  constructor
  · simp [process_stream, h]
  · simp [process_stream, h]

/-! ## C8: request contents ordering -/

theorem load_apparel_parts_order (fs : FS) :
    ∀ (paths : List Str) (parts : List (Bytes × Str)),
      load_apparel_parts fs paths = .ok parts →
      ∀ (i : Nat) (pth : Str), paths[i]? = some pth →
        ∃ pr, load_image_as_bytes fs pth = .ok pr ∧ parts[i]? = some pr := by
  intro paths
  induction paths with
  | nil =>
    intro parts h i pth hp
    simp at hp
  | cons p ps ih =>
    intro parts h i pth hp
    unfold load_apparel_parts at h
    cases hl : load_image_as_bytes fs p with
    | error e => rw [hl] at h; exact absurd h (by simp)
    | ok part =>
      rw [hl] at h
      cases hr : load_apparel_parts fs ps with
      | error e => rw [hr] at h; exact absurd h (by simp)
      | ok rest =>
        rw [hr] at h
        have hparts : parts = part :: rest := by
          cases h; rfl
        subst hparts
        cases i with
        | zero =>
          simp at hp
          subst hp
          exact ⟨part, hl, by simp⟩
        | succ n =>
          simp at hp
          obtain ⟨pr, h1, h2⟩ := ih rest hr n pth hp
          exact ⟨pr, h1, by simpa using h2⟩

theorem getLast?_cons_append_one {α : Type} (t a : α) (l : List α) :
    (t :: (l ++ [a])).getLast? = some a := by
  induction l generalizing t with
  | nil => rfl
  | cons x xs ih =>
    rw [List.cons_append, List.getLast?_cons_cons]
    exact ih x

/-- C8: the request sent to the generation service is deterministic in its
ordering: the fixed instruction comes first, the apparel parts follow in
exactly their given order at positions 1..n, the model part is last, and
the loading loop preserves the order of the apparel paths it was given. -/
theorem c8_request_contents_order :
    ∀ (apparel_parts : List (Bytes × Str)) (model_part : Bytes × Str),
      (build_contents apparel_parts model_part).length = apparel_parts.length + 2
      ∧ (build_contents apparel_parts model_part).head?
          = some (ReqContent.text generation_prompt)
      ∧ (∀ (i : Nat) (p : Bytes × Str), apparel_parts[i]? = some p →
          (build_contents apparel_parts model_part)[i+1]?
            = some (ReqContent.image p.1 p.2))
      ∧ (build_contents apparel_parts model_part).getLast?
          = some (ReqContent.image model_part.1 model_part.2)
      ∧ (∀ (fs : FS) (paths : List Str) (parts : List (Bytes × Str)),
          load_apparel_parts fs paths = .ok parts →
          ∀ (i : Nat) (pth : Str), paths[i]? = some pth →
            ∃ pr, load_image_as_bytes fs pth = .ok pr ∧ parts[i]? = some pr) := by
  intro apparel_parts model_part
  refine ⟨?_, ?_, ?_, ?_, fun fs paths parts h => load_apparel_parts_order fs paths parts h⟩
  · simp [build_contents]
  · simp [build_contents]
  · intro i p hp
    have hi : i < apparel_parts.length := by
      rcases List.getElem?_eq_some.1 hp with ⟨h, _⟩
      exact h
    show ((ReqContent.text generation_prompt ::
        apparel_parts.map (fun p => ReqContent.image p.1 p.2)) ++
          [ReqContent.image model_part.1 model_part.2])[i+1]? = _
    rw [List.getElem?_append_left (by simpa using Nat.succ_lt_succ hi)]
    simp [List.getElem?_map, hp]
  · exact getLast?_cons_append_one _ _ _

/-- C8 witness: the ordering facts applied to a concrete two-element apparel
sequence and a concrete loaded filesystem. -/
theorem c8_witness :
    (([([1], "image/png".toList), ([2], "image/jpeg".toList)] :
        List (Bytes × Str))[1]? = some ([2], "image/jpeg".toList))
    ∧ (build_contents [([1], "image/png".toList), ([2], "image/jpeg".toList)]
        ([3], "image/png".toList))[2]?
        = some (ReqContent.image [2] "image/jpeg".toList) := by
  refine ⟨by decide, ?_⟩
  exact (c8_request_contents_order [([1], "image/png".toList), ([2], "image/jpeg".toList)]
    ([3], "image/png".toList)).2.2.1 1 ([2], "image/jpeg".toList) (by decide)

/-! ## C4: cleanup discipline -/

theorem save_upload_file_ok (fs : FS) (tr : List Event) (sd : Str) (f : UploadFile)
    (dest ts uid : Str) (w : Bool) (p : Str) (fs2 : FS) (tr2 : List Event)
    (h : save_upload_file fs tr sd f dest ts uid w = (.ok p, fs2, tr2)) :
    p = upload_path sd dest ts uid f.filename ∧ tr2 = tr ++ [Event.stored p] := by
  unfold save_upload_file at h
  split at h
  · simp [Prod.ext_iff] at h
  · split at h
    · simp only [Prod.ext_iff, Except.ok.injEq] at h
      obtain ⟨h1, _, h3⟩ := h
      exact ⟨h1.symm, by rw [← h3, h1]⟩
    · simp [Prod.ext_iff] at h

theorem save_upload_file_error (fs : FS) (tr : List Event) (sd : Str) (f : UploadFile)
    (dest ts uid : Str) (w : Bool) (e : HTTPErr) (fs2 : FS) (tr2 : List Event)
    (h : save_upload_file fs tr sd f dest ts uid w = (.error e, fs2, tr2)) :
    tr2 = tr := by
  unfold save_upload_file at h
  split at h
  · simp only [Prod.ext_iff] at h
    exact h.2.2.symm
  · split at h
    · simp [Prod.ext_iff] at h
    · simp only [Prod.ext_iff] at h
      exact h.2.2.symm

theorem analyze_item_events (fs : FS) (p : Str) (r : Except Str Str)
    (jp : Str → Option ClothingAnalysis) :
    (analyze_clothing_item fs p r jp).2 = []
    ∨ (analyze_clothing_item fs p r jp).2 = [Event.remote] := by
  unfold analyze_clothing_item
  cases h : load_image_as_bytes fs p with
  | error e => left; rfl
  | ok v =>
    cases r with
    | error e2 => right; rfl
    | ok t => right; rfl

theorem generate_fashion_events (fs : FS) (paths : List Str) (mp o : Str)
    (rS : List ReqContent → Except Str (List Chunk)) :
    (generate_fashion_product_images fs paths mp o rS).2.2 = []
    ∨ (generate_fashion_product_images fs paths mp o rS).2.2 = [Event.remote] := by
  unfold generate_fashion_product_images
  cases h1 : load_apparel_parts fs paths with
  | error e => left; rfl
  | ok parts =>
    cases h2 : load_image_as_bytes fs mp with
    | error e => left; rfl
    | ok mpart =>
      cases h3 : rS (build_contents parts mpart) with
      | error e => simp [h3]
      | ok chunks => simp [h3]

theorem onlyRemote_nil : onlyRemote [] := fun e he => absurd he (List.not_mem_nil e)

theorem onlyRemote_single : onlyRemote [Event.remote] := by
  intro e he
  simpa using he

theorem onlyRemote_append (a b : List Event) (ha : onlyRemote a) (hb : onlyRemote b) :
    onlyRemote (a ++ b) := by
  intro e he
  rcases List.mem_append.1 he with h | h
  · exact ha e h
  · exact hb e h

theorem onlyRemote_of_analyze (fs : FS) (p : Str) (r : Except Str Str)
    (jp : Str → Option ClothingAnalysis) :
    onlyRemote (analyze_clothing_item fs p r jp).2 := by
  rcases analyze_item_events fs p r jp with h | h <;> rw [h]
  · exact onlyRemote_nil
  · exact onlyRemote_single

theorem onlyRemote_of_generate (fs : FS) (paths : List Str) (mp o : Str)
    (rS : List ReqContent → Except Str (List Chunk)) :
    onlyRemote (generate_fashion_product_images fs paths mp o rS).2.2 := by
  rcases generate_fashion_events fs paths mp o rS with h | h <;> rw [h]
  · exact onlyRemote_nil
  · exact onlyRemote_single

theorem upload_path_apparels_ne_model (sd ts1 uid1 f1 ts2 uid2 f2 : Str) :
    upload_path sd "apparels".toList ts1 uid1 f1
      ≠ upload_path sd "model".toList ts2 uid2 f2 := by
  intro h
  unfold upload_path pyJoin at h
  rw [List.append_assoc, List.append_assoc] at h
  have h2 := List.append_cancel_left h
  have e1 : ("apparels".toList : List Char) = 'a' :: "pparels".toList := rfl
  have e2 : ("model".toList : List Char) = 'm' :: "odel".toList := rfl
  rw [e1, e2] at h2
  simp [List.cons_append] at h2

theorem analyze_trace_shape (fs : FS) (sd : Str) (c : UploadFile) (ts uid : Str)
    (w : Bool) (r : Except Str Str) (jp : Str → Option ClothingAnalysis) (rm : Bool) :
    (analyze_clothing fs sd c ts uid w r jp rm).2.2 = []
    ∨ ∃ es, onlyRemote es ∧
        (analyze_clothing fs sd c ts uid w r jp rm).2.2
          = Event.stored (upload_path sd "apparels".toList ts uid c.filename)
              :: (es ++ [Event.released (upload_path sd "apparels".toList ts uid c.filename)]) := by
  unfold analyze_clothing
  split
  next e fs1 tr1 heq =>
    left
    exact save_upload_file_error fs [] sd c "apparels".toList ts uid w e fs1 tr1 heq
  next p fs1 tr1 heq =>
    obtain ⟨hp, htr⟩ := save_upload_file_ok fs [] sd c "apparels".toList ts uid w p fs1 tr1 heq
    right
    split
    next e2 ev heq2 =>
      refine ⟨ev, ?_, ?_⟩
      · have h2 := onlyRemote_of_analyze fs1 p r jp
        rw [heq2] at h2
        exact h2
      · subst hp
        simp [cleanup_file_trace, htr]
    next a ev heq2 =>
      refine ⟨ev, ?_, ?_⟩
      · have h2 := onlyRemote_of_analyze fs1 p r jp
        rw [heq2] at h2
        exact h2
      · subst hp
        simp [cleanup_file_trace, htr]

theorem generate_trace_shape (fs : FS) (sd st : Str) (c m : UploadFile) (o : Str)
    (ts1 uid1 ts2 uid2 : Str) (w1 w2 : Bool) (rA : Except Str Str)
    (jp : Str → Option ClothingAnalysis)
    (rS : List ReqContent → Except Str (List Chunk)) (us : Nat → Str)
    (mv : Nat → Bool) (r1 r2 : Bool) :
    (generate_product_images fs sd st c m o ts1 uid1 ts2 uid2 w1 w2 rA jp rS us mv r1 r2).2.2 = []
    ∨ (∃ es, onlyRemote es ∧
        (generate_product_images fs sd st c m o ts1 uid1 ts2 uid2 w1 w2 rA jp rS us mv r1 r2).2.2
          = Event.stored (upload_path sd "apparels".toList ts1 uid1 c.filename)
              :: (es ++ [Event.released (upload_path sd "apparels".toList ts1 uid1 c.filename)]))
    ∨ (∃ es, onlyRemote es ∧
        (generate_product_images fs sd st c m o ts1 uid1 ts2 uid2 w1 w2 rA jp rS us mv r1 r2).2.2
          = Event.stored (upload_path sd "apparels".toList ts1 uid1 c.filename)
              :: Event.stored (upload_path sd "model".toList ts2 uid2 m.filename)
              :: (es ++ [Event.released (upload_path sd "apparels".toList ts1 uid1 c.filename),
                         Event.released (upload_path sd "model".toList ts2 uid2 m.filename)])) := by
  unfold generate_product_images
  split
  next e fs1 tr1 heq =>
    left
    exact save_upload_file_error fs [] sd c "apparels".toList ts1 uid1 w1 e fs1 tr1 heq
  next cp fs1 tr1 heq1 =>
    obtain ⟨hcp, htr1⟩ :=
      save_upload_file_ok fs [] sd c "apparels".toList ts1 uid1 w1 cp fs1 tr1 heq1
    split
    next e fs2 tr2 heq2 =>
      right; left
      refine ⟨[], onlyRemote_nil, ?_⟩
      have htr2 := save_upload_file_error fs1 tr1 sd m "model".toList ts2 uid2 w2 e fs2 tr2 heq2
      subst hcp
      simp [cleanup_file_trace, htr2, htr1]
    next mp fs2 tr2 heq2 =>
      obtain ⟨hmp, htr2⟩ :=
        save_upload_file_ok fs1 tr1 sd m "model".toList ts2 uid2 w2 mp fs2 tr2 heq2
      right; right
      split
      next e2 evA heqA =>
        have hoA : onlyRemote evA := by
          have h2 := onlyRemote_of_analyze fs2 cp rA jp
          rw [heqA] at h2
          exact h2
        refine ⟨evA, hoA, ?_⟩
        subst hcp; subst hmp
        simp [cleanup_file_trace, htr2, htr1]
      next a evA heqA =>
        have hoA : onlyRemote evA := by
          have h2 := onlyRemote_of_analyze fs2 cp rA jp
          rw [heqA] at h2
          exact h2
        split
        next e3 fs3 evG heqG =>
          have hoG : onlyRemote evG := by
            have h2 := onlyRemote_of_generate fs2 (char_paths cp) mp o rS
            rw [heqG] at h2
            exact h2
          refine ⟨evA ++ evG, onlyRemote_append _ _ hoA hoG, ?_⟩
          subst hcp; subst hmp
          simp [cleanup_file_trace, htr2, htr1]
        next u fs3 evG heqG =>
          have hoG : onlyRemote evG := by
            have h2 := onlyRemote_of_generate fs2 (char_paths cp) mp o rS
            rw [heqG] at h2
            exact h2
          split
          next e4 fs4 heqC =>
            refine ⟨evA ++ evG, onlyRemote_append _ _ hoA hoG, ?_⟩
            subst hcp; subst hmp
            simp [cleanup_file_trace, htr2, htr1]
          next files urls fs4 heqC =>
            refine ⟨evA ++ evG, onlyRemote_append _ _ hoA hoG, ?_⟩
            subst hcp; subst hmp
            simp [cleanup_file_trace, htr2, htr1]

/-- C4: in both endpoints, for every request and every exit path (validation
failure, write failure, remote analysis or generation failure, publish
failure, success), every path is released exactly as many times as it was
stored, and no path is stored more than once — so every asset stored during
the request is released exactly once before control returns, and nothing is
released that was not stored. -/
theorem c4_stored_assets_released_exactly_once :
    (∀ (fs : FS) (sd st : Str) (c m : UploadFile) (o ts1 uid1 ts2 uid2 : Str)
       (w1 w2 : Bool) (rA : Except Str Str) (jp : Str → Option ClothingAnalysis)
       (rS : List ReqContent → Except Str (List Chunk)) (us : Nat → Str)
       (mv : Nat → Bool) (r1 r2 : Bool) (p : Str),
       countEv (generate_product_images fs sd st c m o ts1 uid1 ts2 uid2
           w1 w2 rA jp rS us mv r1 r2).2.2 (Event.released p)
         = countEv (generate_product_images fs sd st c m o ts1 uid1 ts2 uid2
             w1 w2 rA jp rS us mv r1 r2).2.2 (Event.stored p)
       ∧ countEv (generate_product_images fs sd st c m o ts1 uid1 ts2 uid2
           w1 w2 rA jp rS us mv r1 r2).2.2 (Event.stored p) ≤ 1)
    ∧ (∀ (fs : FS) (sd : Str) (c : UploadFile) (ts uid : Str) (w : Bool)
        (r : Except Str Str) (jp : Str → Option ClothingAnalysis) (rm : Bool) (p : Str),
        countEv (analyze_clothing fs sd c ts uid w r jp rm).2.2 (Event.released p)
          = countEv (analyze_clothing fs sd c ts uid w r jp rm).2.2 (Event.stored p)
        ∧ countEv (analyze_clothing fs sd c ts uid w r jp rm).2.2 (Event.stored p) ≤ 1) := by
  constructor
  · intro fs sd st c m o ts1 uid1 ts2 uid2 w1 w2 rA jp rS us mv r1 r2 p
    rcases generate_trace_shape fs sd st c m o ts1 uid1 ts2 uid2 w1 w2 rA jp rS us mv r1 r2
      with h | ⟨es, ho, h⟩ | ⟨es, ho, h⟩ <;> rw [h]
    · simp [countEv_nil]
    · obtain ⟨h1, h2⟩ := countEv_onlyRemote es ho p
      set CP := upload_path sd "apparels".toList ts1 uid1 c.filename with hCP
      by_cases hp : p = CP
      · subst hp
        simp [countEv_cons, countEv_append, countEv_nil, h1, h2]
      · have hp2 : CP ≠ p := fun hh => hp hh.symm
        simp [countEv_cons, countEv_append, countEv_nil, h1, h2, hp2]
    · obtain ⟨h1, h2⟩ := countEv_onlyRemote es ho p
      have hne := upload_path_apparels_ne_model sd ts1 uid1 c.filename ts2 uid2 m.filename
      set CP := upload_path sd "apparels".toList ts1 uid1 c.filename with hCP
      set MP := upload_path sd "model".toList ts2 uid2 m.filename with hMP
      by_cases hp : p = CP <;> by_cases hq : p = MP
      · exact absurd (hp ▸ hq) hne
      · subst hp
        simp [countEv_cons, countEv_append, countEv_nil, h1, h2, Ne.symm hne]
      · subst hq
        simp [countEv_cons, countEv_append, countEv_nil, h1, h2, hne]
      · have hp2 : CP ≠ p := fun hh => hp hh.symm
        have hq2 : MP ≠ p := fun hh => hq hh.symm
        simp [countEv_cons, countEv_append, countEv_nil, h1, h2, hp2, hq2]
  · intro fs sd c ts uid w r jp rm p
    rcases analyze_trace_shape fs sd c ts uid w r jp rm with h | ⟨es, ho, h⟩ <;> rw [h]
    · simp [countEv_nil]
    · obtain ⟨h1, h2⟩ := countEv_onlyRemote es ho p
      set CP := upload_path sd "apparels".toList ts uid c.filename with hCP
      by_cases hp : p = CP
      · subst hp
        simp [countEv_cons, countEv_append, countEv_nil, h1, h2]
      · have hp2 : CP ≠ p := fun hh => hp hh.symm
        simp [countEv_cons, countEv_append, countEv_nil, h1, h2, hp2]

/-! ## C3: publish relocation failure -/

theorem collect_step_error_absorbs (sd o : Str) (us : Nat → Str) (mv : Nat → Bool)
    (e : Str) (fs : FS) (l : List Nat) :
    l.foldl (collect_step sd o us mv) (.error e, fs) = (.error e, fs) := by
  induction l with
  | nil => rfl
  | cons x xs ih => exact ih

/-- C3 counterexample: two generated files await publication, relocating the
first succeeds and relocating the second fails; the collect loop returns the
raised error — no references at all, not even for the file already relocated,
which does sit at its published location while the second file is left
behind. -/
theorem c3_counterexample :
    c3_run.1 = Except.error "move failed".toList
    ∧ c3_run.2 (pyJoin "/app/static".toList (static_name "u".toList 0)) = some [1]
    ∧ c3_run.2 (scan_name "product".toList 1) = some [2] := by
  refine ⟨rfl, by decide, by decide⟩

/-- C3 (amended): when the bounded publish scan reaches an index whose
generated file exists but whose relocation fails, the whole loop aborts with
the raised error: the request reports total failure and the references
collected so far are discarded, not returned.  The hypothesis describes the
loop state just before the failing index. -/
theorem c3_move_failure_aborts_batch :
    ∀ (fs : FS) (sd o : Str) (us : Nat → Str) (mv : Nat → Bool) (n : Nat),
      n < 10 →
      ((List.range n).foldl (collect_step sd o us mv) (.ok ([], []), fs)).1.isOk = true →
      ((((List.range n).foldl (collect_step sd o us mv) (.ok ([], []), fs)).2)
          (scan_name o n)).isSome = true →
      mv n = false →
      (collect_generated fs sd o us mv).1 = .error "move failed".toList := by
  intro fs sd o us mv n hn hok hsome hmv
  unfold collect_generated
  have hsplit : (10 : Nat) = n + (10 - n) := by omega
  rw [hsplit, List.range_add, List.foldl_append]
  cases hacc : (List.range n).foldl (collect_step sd o us mv) (.ok ([], []), fs) with
  | mk racc fsn =>
    rw [hacc] at hok hsome
    cases racc with
    | error e => simp [Except.isOk, Except.toBool] at hok
    | ok pair =>
      obtain ⟨files, urls⟩ := pair
      have h10 : 10 - n = (10 - n - 1) + 1 := by omega
      rw [h10]
      have hrange : List.range ((10 - n - 1) + 1) = 0 :: (List.range (10 - n - 1)).map (· + 1) := by
        exact List.range_succ_eq_map (10 - n - 1)
      rw [hrange]
      simp only [List.map_cons, List.map_map, List.foldl_cons]
      have hstep : collect_step sd o us mv (.ok (files, urls), fsn) (n + 0)
          = (.error "move failed".toList, fsn) := by
        unfold collect_step
        simp at hsome
        simp [hsome, hmv]
      rw [hstep]
      rw [collect_step_error_absorbs]

/-- C3 witness: the amended theorem applied to the concrete two-file
scenario of the counterexample, failing at index 1. -/
theorem c3_witness :
    (1 < 10
      ∧ ((List.range 1).foldl
          (collect_step "/app/static".toList "product".toList (fun _ => "u".toList)
            (fun i => i == 0)) (.ok ([], []), c3_fs)).1.isOk = true
      ∧ ((((List.range 1).foldl
          (collect_step "/app/static".toList "product".toList (fun _ => "u".toList)
            (fun i => i == 0)) (.ok ([], []), c3_fs)).2)
          (scan_name "product".toList 1)).isSome = true
      ∧ (fun i => i == 0) 1 = false)
    ∧ (collect_generated c3_fs "/app/static".toList "product".toList
        (fun _ => "u".toList) (fun i => i == 0)).1 = .error "move failed".toList :=
  ⟨⟨by decide, by decide, by decide, by decide⟩,
    c3_move_failure_aborts_batch c3_fs "/app/static".toList "product".toList
      (fun _ => "u".toList) (fun i => i == 0) 1 (by decide) (by decide) (by decide) (by decide)⟩

/-! ## C1: the happy-path generation scenario -/

/-- C1: evaluating the generate endpoint on a fully valid scenario — valid
shirt.jpg and model.png uploads, healthy writes, an analysis response, and a
remote stream that would carry four image chunks — does not produce a
four-reference result: the call to the generation function passes the
clothing path string where banana.py documents a list of paths, Python
iterates it character by character (see `char_paths`), loading the
one-character path "/" raises, and the endpoint returns the 500 failure.
Both temporary uploads are still deleted, the trace shows one store and one
release per upload, one remote call (the analysis), and the generation
stream is never consumed. -/
theorem c1_generate_string_for_list_bug :
    c1_run.1 = Except.error ⟨500,
        "Product generation failed: ".toList ++ "No such file or directory".toList⟩
    ∧ c1_run.2.1 (upload_path "/app".toList "apparels".toList
        "20240101_000000".toList "aaaabbbb".toList "shirt.jpg".toList) = none
    ∧ c1_run.2.1 (upload_path "/app".toList "model".toList
        "20240101_000001".toList "ccccdddd".toList "model.png".toList) = none
    ∧ c1_run.2.2 =
        [Event.stored (upload_path "/app".toList "apparels".toList
            "20240101_000000".toList "aaaabbbb".toList "shirt.jpg".toList),
         Event.stored (upload_path "/app".toList "model".toList
            "20240101_000001".toList "ccccdddd".toList "model.png".toList),
         Event.remote,
         Event.released (upload_path "/app".toList "apparels".toList
            "20240101_000000".toList "aaaabbbb".toList "shirt.jpg".toList),
         Event.released (upload_path "/app".toList "model".toList
            "20240101_000001".toList "ccccdddd".toList "model.png".toList)] := by
  refine ⟨rfl, by decide, by decide, by decide⟩

/-! ## C10: unique filename preserves the extension -/

theorem takeWhile_all {α : Type} (p : α → Bool) (l : List α)
    (h : ∀ a ∈ l, p a = true) : l.takeWhile p = l := by
  induction l with
  | nil => rfl
  | cons a l ih =>
    rw [List.takeWhile_cons, h a (List.mem_cons_self a l)]
    simp [ih fun b hb => h b (List.mem_cons_of_mem a hb)]

theorem takeWhile_append_of_neg {α : Type} (p : α → Bool) (x : α) (l1 l2 : List α)
    (hx : p x = false) :
    (l1 ++ x :: l2).takeWhile p = l1.takeWhile p := by
  induction l1 with
  | nil => simp [List.takeWhile_cons, hx]
  | cons a l ih =>
    rw [List.cons_append, List.takeWhile_cons, List.takeWhile_cons]
    cases hpa : p a <;> simp [ih]

theorem afterLastSlash_eq_self (s : Str) (h : ∀ c ∈ s, c ≠ '/') :
    afterLastSlash s = s := by
  unfold afterLastSlash
  rw [takeWhile_all _ _ ?hall, List.reverse_reverse]
  case hall =>
    intro a ha
    simpa using h a (List.mem_reverse.1 ha)

theorem afterLastSlash_pyJoin (d name : Str) :
    afterLastSlash (pyJoin d name) = afterLastSlash name := by
  unfold afterLastSlash pyJoin
  rw [List.reverse_append, List.reverse_cons, List.append_assoc]
  rw [show (['/'] ++ d.reverse : Str) = '/' :: d.reverse from rfl]
  rw [takeWhile_append_of_neg _ _ _ _ (by decide)]

theorem pySuffix_pyJoin (d name : Str) :
    pySuffix (pyJoin d name) = pySuffix name := by
  unfold pySuffix
  rw [afterLastSlash_pyJoin]

theorem pySuffix_concat (stem rest : Str)
    (hstem : stem ≠ []) (hrest : rest ≠ [])
    (hnodot : ∀ c ∈ rest, c ≠ '.')
    (hs1 : ∀ c ∈ stem, c ≠ '/') (hs2 : ∀ c ∈ rest, c ≠ '/') :
    pySuffix (stem ++ '.' :: rest) = '.' :: rest := by
  have hname : afterLastSlash (stem ++ '.' :: rest) = stem ++ '.' :: rest := by
    apply afterLastSlash_eq_self
    intro c hc
    rcases List.mem_append.1 hc with h | h
    · exact hs1 c h
    · rcases List.mem_cons.1 h with h | h
      · subst h; decide
      · exact hs2 c h
  have hr : (stem ++ '.' :: rest).reverse = rest.reverse ++ '.' :: stem.reverse := by
    rw [List.reverse_append, List.reverse_cons, List.append_assoc]
    rfl
  have ha : (rest.reverse ++ '.' :: stem.reverse).takeWhile (fun c => c ≠ '.')
      = rest.reverse := by
    rw [takeWhile_append_of_neg _ _ _ _ (by decide)]
    apply takeWhile_all
    intro a haa
    simpa using hnodot a (List.mem_reverse.1 haa)
  unfold pySuffix
  rw [hname]
  simp only [hr, ha]
  rw [List.drop_left]
  have hb : stem.reverse ≠ [] := by
    simpa using hstem
  have ha2 : rest.reverse ≠ [] := by
    simpa using hrest
  simp [ha2, hb]

theorem pyCharLower_eq_dot (c : Char) (h : pyCharLower c = '.') : c = '.' := by
  unfold pyCharLower at h
  split at h
  all_goals first | exact h | exact absurd h (by decide)

theorem suffix_shape_aux (sfx L : Str) (hL1 : L ≠ []) (hL2 : '.' ∉ L) (hL3 : '/' ∉ L)
    (h : pyLower sfx = '.' :: L) :
    sfx.head? = some '.'
    ∧ ∃ rest, sfx = '.' :: rest ∧ rest ≠ []
        ∧ (∀ c ∈ rest, c ≠ '.') ∧ (∀ c ∈ rest, c ≠ '/') := by
  cases sfx with
  | nil => simp [pyLower] at h
  | cons c0 rest =>
    simp only [pyLower, List.map_cons, List.cons.injEq] at h
    obtain ⟨h0, hrest⟩ := h
    have hc0 : c0 = '.' := pyCharLower_eq_dot c0 h0
    subst hc0
    refine ⟨rfl, rest, rfl, ?_, ?_, ?_⟩
    · intro hnil
      subst hnil
      simp [pyLower] at hrest
      exact hL1 hrest
    · intro c hc hdot
      subst hdot
      apply hL2
      rw [← hrest]
      have : pyCharLower '.' ∈ List.map pyCharLower rest := List.mem_map_of_mem pyCharLower hc
      simpa [pyLower] using this
    · intro c hc hsl
      subst hsl
      apply hL3
      rw [← hrest]
      have : pyCharLower '/' ∈ List.map pyCharLower rest := List.mem_map_of_mem pyCharLower hc
      simpa [pyLower] using this

theorem validate_true_components (f : UploadFile) (hv : validate_image_file f = true) :
    f.content_type ∈ allowed_types
    ∧ pyLower (pySuffix f.filename) ∈ allowed_extensions := by
  unfold validate_image_file at hv
  by_cases h1 : allowed_types.contains f.content_type = true
  · by_cases h2 : allowed_extensions.contains (pyLower (pySuffix f.filename)) = true
    · constructor
      · simpa using h1
      · simpa using h2
    · rw [if_neg (by simp_all), if_pos (by simp_all)] at hv
      exact absurd hv (by decide)
  · rw [if_pos (by simp_all)] at hv
    exact absurd hv (by decide)

theorem suffix_shape (f : UploadFile) (hv : validate_image_file f = true) :
    ∃ rest, pySuffix f.filename = '.' :: rest ∧ rest ≠ []
      ∧ (∀ c ∈ rest, c ≠ '.') ∧ (∀ c ∈ rest, c ≠ '/') := by
  have hext := (validate_true_components f hv).2
  have hmem : pyLower (pySuffix f.filename) = ".jpg".toList
      ∨ pyLower (pySuffix f.filename) = ".jpeg".toList
      ∨ pyLower (pySuffix f.filename) = ".png".toList
      ∨ pyLower (pySuffix f.filename) = ".webp".toList := by
    simpa [allowed_extensions] using hext
  rcases hmem with h | h | h | h
  · rw [show (".jpg".toList : Str) = '.' :: "jpg".toList from rfl] at h
    exact (suffix_shape_aux _ _ (by decide) (by decide) (by decide) h).2
  · rw [show (".jpeg".toList : Str) = '.' :: "jpeg".toList from rfl] at h
    exact (suffix_shape_aux _ _ (by decide) (by decide) (by decide) h).2
  · rw [show (".png".toList : Str) = '.' :: "png".toList from rfl] at h
    exact (suffix_shape_aux _ _ (by decide) (by decide) (by decide) h).2
  · rw [show (".webp".toList : Str) = '.' :: "webp".toList from rfl] at h
    exact (suffix_shape_aux _ _ (by decide) (by decide) (by decide) h).2

theorem guess_type_of_ext (path : Str)
    (h : pyLower (pySuffix path) ∈ allowed_extensions) :
    (guess_type path).isSome = true := by
  have hmem : pyLower (pySuffix path) = ".jpg".toList
      ∨ pyLower (pySuffix path) = ".jpeg".toList
      ∨ pyLower (pySuffix path) = ".png".toList
      ∨ pyLower (pySuffix path) = ".webp".toList := by
    simpa [allowed_extensions] using h
  unfold guess_type
  rcases hmem with h | h | h | h <;> simp only [h] <;> decide

/-- C10: for a validated upload, the unique storage filename generated from
a dot-free and slash-free timestamp and token keeps the original filename
suffix verbatim: its own suffix equals the original suffix, the name ends
with that suffix, the lowercased suffix is in the extension allow-list, MIME
guessing on the stored path (any directory joined with the name) succeeds,
and `save_upload_file` stores exactly this name under the destination. -/
theorem c10_unique_filename_preserves_extension :
    ∀ (f : UploadFile) (ts uid : Str),
      validate_image_file f = true →
      (∀ c ∈ ts, c ≠ '.' ∧ c ≠ '/') →
      (∀ c ∈ uid, c ≠ '.' ∧ c ≠ '/') →
      pySuffix (get_unique_filename ts uid f.filename) = pySuffix f.filename
      ∧ (∃ pre, get_unique_filename ts uid f.filename = pre ++ pySuffix f.filename)
      ∧ pyLower (pySuffix (get_unique_filename ts uid f.filename)) ∈ allowed_extensions
      ∧ (∀ d : Str,
          (guess_type (pyJoin d (get_unique_filename ts uid f.filename))).isSome = true)
      ∧ (∀ (fs : FS) (tr : List Event) (sd dest : Str),
          (save_upload_file fs tr sd f dest ts uid true).1
            = .ok (upload_path sd dest ts uid f.filename)) := by
  intro f ts uid hv hts huid
  obtain ⟨rest, hsfx, hrest, hnodot, hnoslash⟩ := suffix_shape f hv
  have hstem_ne : (ts ++ '_' :: uid : Str) ≠ [] := by simp
  have hstem_noslash : ∀ c ∈ (ts ++ '_' :: uid : Str), c ≠ '/' := by
    intro c hc
    rcases List.mem_append.1 hc with h | h
    · exact (hts c h).2
    · rcases List.mem_cons.1 h with h | h
      · subst h; decide
      · exact (huid c h).2
  have hname_eq : get_unique_filename ts uid f.filename
      = (ts ++ '_' :: uid) ++ '.' :: rest := by
    unfold get_unique_filename
    rw [hsfx]
  have h1 : pySuffix (get_unique_filename ts uid f.filename) = pySuffix f.filename := by
    rw [hname_eq, pySuffix_concat _ _ hstem_ne hrest hnodot hstem_noslash hnoslash, hsfx]
  have hext := (validate_true_components f hv).2
  refine ⟨h1, ⟨ts ++ '_' :: uid, ?_⟩, ?_, ?_, ?_⟩
  · rw [hname_eq, hsfx]
  · rw [h1]
    exact hext
  · intro d
    apply guess_type_of_ext
    rw [pySuffix_pyJoin, h1]
    exact hext
  · intro fs tr sd dest
    unfold save_upload_file
    rw [if_neg (by simp [hv])]
    rfl

/-- C10 witness: the theorem applied to a validated upper-case-extension
upload with a concrete timestamp and token. -/
theorem c10_witness :
    (validate_image_file ⟨"shirt.JPG".toList, "image/jpeg".toList, [1]⟩ = true
      ∧ (∀ c ∈ ("20240101_000000".toList : Str), c ≠ '.' ∧ c ≠ '/')
      ∧ (∀ c ∈ ("abcd1234".toList : Str), c ≠ '.' ∧ c ≠ '/'))
    ∧ (pySuffix (get_unique_filename "20240101_000000".toList "abcd1234".toList
          ("shirt.JPG".toList))
        = pySuffix ("shirt.JPG".toList)
      ∧ (∃ pre, get_unique_filename "20240101_000000".toList "abcd1234".toList
            ("shirt.JPG".toList)
          = pre ++ pySuffix ("shirt.JPG".toList))
      ∧ pyLower (pySuffix (get_unique_filename "20240101_000000".toList
            "abcd1234".toList ("shirt.JPG".toList))) ∈ allowed_extensions
      ∧ (∀ d : Str,
          (guess_type (pyJoin d (get_unique_filename "20240101_000000".toList
            "abcd1234".toList ("shirt.JPG".toList)))).isSome = true)
      ∧ (∀ (fs : FS) (tr : List Event) (sd dest : Str),
          (save_upload_file fs tr sd ⟨"shirt.JPG".toList, "image/jpeg".toList, [1]⟩
              dest "20240101_000000".toList "abcd1234".toList true).1
            = .ok (upload_path sd dest "20240101_000000".toList "abcd1234".toList
                ("shirt.JPG".toList)))) :=
  ⟨⟨by decide, by decide, by decide⟩,
    c10_unique_filename_preserves_extension
      ⟨"shirt.JPG".toList, "image/jpeg".toList, [1]⟩
      "20240101_000000".toList "abcd1234".toList
      (by decide) (by decide) (by decide)⟩
